import Mathlib

/-!
Verification of the Wav2Lip lip-sync pipeline
(`backend/services/wav2lip_service.py`).

The development shallowly embeds the pipeline:

* images are total functions from (row, column, channel) to rational
  pixel values together with explicit dimensions;
* the mel-chunking `while` loop of `_process_video_native` is embedded
  as a fuel-indexed recursion (`melChunksAux`), with a proof that a
  computable fuel bound suffices whenever the frame rate is positive;
* numpy slicing on the time axis of the spectrogram is embedded by
  `pySlice`, including Python's negative-index semantics;
* face detection, padding and clamping, batch assembly, masking,
  channel concatenation, normalisation and the final compositing loop
  are embedded function by function;
* the orchestration (`generate`, `_run_wav2lip`, the subprocess
  fallback and the passthrough copy) is embedded over an environment
  record describing the outcomes of the external world (file existence,
  detector output, subprocess success), and each run also returns an
  event trace recording which effects were performed.
-/

/-- A color image: explicit dimensions plus a total pixel function
(row, column, channel ↦ value).  Pixel values are rationals; source
frames carry byte values in `[0, 255]`. -/
structure Image where
  h : ℕ
  w : ℕ
  c : ℕ
  pix : ℕ → ℕ → ℕ → ℚ

/-- Default image used only as the out-of-range default of `List.getD`. -/
def defaultImage : Image := ⟨0, 0, 0, fun _ _ _ => 0⟩

/-- A raw detector rectangle, in the detector's `(x1, y1, x2, y2)` order
(`rect[0] .. rect[3]` in `_detect_faces`). -/
structure Rect where
  x1 : ℤ
  y1 : ℤ
  x2 : ℤ
  y2 : ℤ
deriving DecidableEq

/-- A face bounding box `(y1, y2, x1, x2)`, the order in which
`_detect_faces` stores coordinates. -/
structure Box where
  y1 : ℤ
  y2 : ℤ
  x1 : ℤ
  x2 : ℤ
deriving DecidableEq

/-- Per-edge padding `[pady1, pady2, padx1, padx2]` (top, bottom, left,
right), as in `pads = [0, 10, 0, 0]`. -/
structure Pads where
  pady1 : ℤ
  pady2 : ℤ
  padx1 : ℤ
  padx2 : ℤ
deriving DecidableEq

/-- The pad configuration hard-coded in `_process_video_native`. -/
def wav2lipPads : Pads := ⟨0, 10, 0, 0⟩

/-! ### Python slice semantics on the mel time axis -/

/-- Resolve one Python slice endpoint against a list of length `len`:
negative indices count from the end (clamped below by 0), nonnegative
ones are clamped above by `len`. -/
def pyIndex (len : ℕ) (i : ℤ) : ℕ :=
  if i < 0 then (max 0 ((len : ℤ) + i)).toNat else min i.toNat len

/-- Embedding of Python slicing: `pySlice xs start stop` is `xs[start:stop]` (`stop = none` for an
omitted endpoint).  The spectrogram is represented by its list of time
columns, so `mel[:, a:b]` becomes `pySlice columns a (some b)`. -/
def pySlice {α : Type} (xs : List α) (start : ℤ) (stop : Option ℤ) : List α :=
  let s := pyIndex xs.length start
  let e := match stop with
    | none => xs.length
    | some t => pyIndex xs.length t
  (xs.take e).drop s

theorem pyIndex_nonneg_le (len : ℕ) (i : ℤ) (h0 : 0 ≤ i) (hle : i ≤ (len : ℤ)) :
    pyIndex len i = i.toNat := by
  unfold pyIndex
  rw [if_neg (by omega)]
  omega

theorem pySlice_length_full {α : Type} (xs : List α) (s : ℤ)
    (h0 : 0 ≤ s) (hle : s + 16 ≤ (xs.length : ℤ)) :
    (pySlice xs s (some (s + 16))).length = 16 := by
  unfold pySlice
  simp only [List.length_drop, List.length_take]
  rw [pyIndex_nonneg_le _ _ h0 (by omega), pyIndex_nonneg_le _ _ (by omega) hle]
  omega

theorem pySlice_length_tail {α : Type} (xs : List α)
    (h16 : 16 ≤ xs.length) :
    (pySlice xs ((xs.length : ℤ) - 16) none).length = 16 := by
  unfold pySlice
  simp only [List.length_drop, List.length_take]
  rw [pyIndex_nonneg_le _ _ (by omega) (by omega)]
  omega

/-! ### The mel-chunking loop (`_process_video_native`, lines 307–319)

```
mel_idx_multiplier = 80.0 / fps
i = 0
while True:
    start_idx = int(i * mel_idx_multiplier)
    if start_idx + mel_step_size > len(mel[0]):
        mel_chunks.append(mel[:, len(mel[0]) - mel_step_size:])
        break
    mel_chunks.append(mel[:, start_idx:start_idx + mel_step_size])
    i += 1
```

`mel_step_size = 16`.  The float multiplication is embedded by exact
rational arithmetic; `int` truncation of a nonnegative value is `⌊·⌋`.
The unbounded loop is embedded with explicit fuel returning `none` on
exhaustion, and `chunkFuel` below is proved sufficient for every
positive frame rate. -/

/-- Start index of the mel window for output frame `i`:
`int(i * (80.0 / fps))`. -/
def melStart (fps : ℚ) (i : ℕ) : ℤ := ⌊(i : ℚ) * (80 / fps)⌋

/-- Fuel-indexed embedding of the chunking `while` loop.  Arguments:
loop counter `i`, remaining fuel. -/
def melChunksAux {α : Type} (fps : ℚ) (mel : List α) : ℕ → ℕ → Option (List (List α))
  | _, 0 => none
  | i, fuel + 1 =>
    if melStart fps i + 16 > (mel.length : ℤ) then
      some [pySlice mel ((mel.length : ℤ) - 16) none]
    else
      match melChunksAux fps mel (i + 1) fuel with
      | none => none
      | some rest =>
        some (pySlice mel (melStart fps i) (some (melStart fps i + 16)) :: rest)

/-- A computable fuel bound for the chunking loop. -/
def chunkFuel (fps : ℚ) (len : ℕ) : ℕ := (⌈((len : ℚ) + 1) * fps / 80⌉).toNat + 1

/-- The full chunk list produced by the loop.  For `0 < fps` the fuel is
sufficient (`melChunksT_eq_aux`), so the default branch is never taken
under that hypothesis. -/
def melChunksT {α : Type} (fps : ℚ) (mel : List α) : List (List α) :=
  (melChunksAux fps mel 0 (chunkFuel fps mel.length)).getD []

theorem melStart_nonneg (fps : ℚ) (hfps : 0 < fps) (i : ℕ) : 0 ≤ melStart fps i := by
  unfold melStart
  apply Int.floor_nonneg.2
  positivity

theorem melStart_large (fps : ℚ) (hfps : 0 < fps) (len : ℕ) :
    (len : ℤ) < melStart fps ((⌈((len : ℚ) + 1) * fps / 80⌉).toNat) + 16 := by
  have hx : (0 : ℚ) ≤ ((len : ℚ) + 1) * fps / 80 := by positivity
  set N : ℕ := (⌈((len : ℚ) + 1) * fps / 80⌉).toNat with hN
  have hceil : ((len : ℚ) + 1) * fps / 80 ≤ (N : ℚ) := by
    have h1 : ((len : ℚ) + 1) * fps / 80 ≤ (⌈((len : ℚ) + 1) * fps / 80⌉ : ℚ) :=
      Int.le_ceil _
    have h2 : (⌈((len : ℚ) + 1) * fps / 80⌉ : ℚ) ≤ (N : ℚ) := by
      rw [hN]
      exact_mod_cast Int.self_le_toNat _
    linarith
  have hmul : ((len : ℚ) + 1) ≤ (N : ℚ) * (80 / fps) := by
    have h80 : (0 : ℚ) < 80 / fps := by positivity
    have := mul_le_mul_of_nonneg_right hceil (le_of_lt h80)
    calc ((len : ℚ) + 1) = ((len : ℚ) + 1) * fps / 80 * (80 / fps) := by
          field_simp
      _ ≤ (N : ℚ) * (80 / fps) := this
  have hfloor : (len : ℤ) + 1 ≤ melStart fps N := by
    unfold melStart
    rw [Int.le_floor]
    push_cast
    exact hmul
  omega

theorem melChunksAux_isSome {α : Type} (fps : ℚ) (mel : List α) :
    ∀ fuel i, (∃ j, j < fuel ∧ (mel.length : ℤ) < melStart fps (i + j) + 16) →
      (melChunksAux fps mel i fuel).isSome := by
  intro fuel
  induction fuel with
  | zero => intro i ⟨j, hj, _⟩; omega
  | succ n ih =>
    intro i ⟨j, hj, hcond⟩
    unfold melChunksAux
    by_cases hc : melStart fps i + 16 > (mel.length : ℤ)
    · rw [if_pos hc]; rfl
    · rw [if_neg hc]
      have hj0 : j ≠ 0 := by
        intro h; rw [h] at hcond; simp at hcond; omega
      have hsome : (melChunksAux fps mel (i + 1) n).isSome := by
        apply ih
        exact ⟨j - 1, by omega, by
          have : i + 1 + (j - 1) = i + j := by omega
          rw [this]; exact hcond⟩
      cases hm : melChunksAux fps mel (i + 1) n with
      | none => rw [hm] at hsome; simp at hsome
      | some rest => rfl

theorem melChunksT_eq_aux {α : Type} (fps : ℚ) (mel : List α) (hfps : 0 < fps) :
    ∃ chunks, melChunksAux fps mel 0 (chunkFuel fps mel.length) = some chunks ∧
      melChunksT fps mel = chunks := by
  have hsome := melChunksAux_isSome fps mel (chunkFuel fps mel.length) 0
    ⟨(⌈((mel.length : ℚ) + 1) * fps / 80⌉).toNat, by
      constructor
      · unfold chunkFuel; omega
      · simpa using melStart_large fps hfps mel.length⟩
  cases hm : melChunksAux fps mel 0 (chunkFuel fps mel.length) with
  | none => rw [hm] at hsome; simp at hsome
  | some chunks =>
    exact ⟨chunks, rfl, by unfold melChunksT; rw [hm]; rfl⟩

theorem melChunksAux_ne_nil {α : Type} (fps : ℚ) (mel : List α) :
    ∀ fuel i chunks, melChunksAux fps mel i fuel = some chunks → chunks ≠ [] := by
  intro fuel
  induction fuel with
  | zero => intro i chunks h; simp [melChunksAux] at h
  | succ n ih =>
    intro i chunks h
    unfold melChunksAux at h
    by_cases hc : melStart fps i + 16 > (mel.length : ℤ)
    · rw [if_pos hc] at h
      cases h
      simp
    · rw [if_neg hc] at h
      cases hm : melChunksAux fps mel (i + 1) n with
      | none => rw [hm] at h; cases h
      | some rest =>
        rw [hm] at h
        cases h
        simp

theorem melChunksAux_mem_shape {α : Type} (fps : ℚ) (mel : List α) (hfps : 0 < fps) :
    ∀ fuel i chunks, melChunksAux fps mel i fuel = some chunks →
      ∀ ch ∈ chunks,
        (∃ s : ℤ, 0 ≤ s ∧ s + 16 ≤ (mel.length : ℤ) ∧
          ch = pySlice mel s (some (s + 16))) ∨
        ch = pySlice mel ((mel.length : ℤ) - 16) none := by
  intro fuel
  induction fuel with
  | zero => intro i chunks h; simp [melChunksAux] at h
  | succ n ih =>
    intro i chunks h
    unfold melChunksAux at h
    by_cases hc : melStart fps i + 16 > (mel.length : ℤ)
    · rw [if_pos hc] at h
      cases h
      intro ch hch
      simp at hch
      right
      exact hch
    · rw [if_neg hc] at h
      cases hm : melChunksAux fps mel (i + 1) n with
      | none => rw [hm] at h; cases h
      | some rest =>
        rw [hm] at h
        cases h
        intro ch hch
        rcases List.mem_cons.1 hch with hhd | htl
        · left
          exact ⟨melStart fps i, melStart_nonneg fps hfps i, by omega, hhd⟩
        · exact ih (i + 1) rest hm ch htl

theorem melChunksAux_stop {α : Type} (fps : ℚ) (mel : List α) (i fuel : ℕ)
    (h : melStart fps i + 16 > (mel.length : ℤ)) :
    melChunksAux fps mel i (fuel + 1) =
      some [pySlice mel ((mel.length : ℤ) - 16) none] := by
  unfold melChunksAux
  rw [if_pos h]

theorem melChunksAux_step {α : Type} (fps : ℚ) (mel : List α) (i fuel : ℕ)
    (h : ¬ melStart fps i + 16 > (mel.length : ℤ)) :
    melChunksAux fps mel i (fuel + 1) =
      (melChunksAux fps mel (i + 1) fuel).map
        (fun rest => pySlice mel (melStart fps i) (some (melStart fps i + 16)) :: rest) := by
  conv_lhs => unfold melChunksAux
  rw [if_neg h]
  cases melChunksAux fps mel (i + 1) fuel with
  | none => rfl
  | some rest => rfl

/-! Concrete evaluations of the chunker at `fps = 25`
(`mel_idx_multiplier = 3.2`), reused by witnesses and counterexamples. -/

theorem melStart_25_0 : melStart 25 0 = 0 := by
  unfold melStart; rw [Int.floor_eq_iff] ; norm_num

theorem melStart_25_1 : melStart 25 1 = 3 := by
  unfold melStart; rw [Int.floor_eq_iff] ; norm_num

theorem melStart_25_2 : melStart 25 2 = 6 := by
  unfold melStart; rw [Int.floor_eq_iff] ; norm_num

theorem chunkFuel_25_16 : chunkFuel 25 16 = 7 := by
  unfold chunkFuel
  rw [show ⌈((16 : ℕ) + 1 : ℚ) * 25 / 80⌉ = 6 by rw [Int.ceil_eq_iff] <;> norm_num]
  rfl

theorem chunkFuel_25_20 : chunkFuel 25 20 = 8 := by
  unfold chunkFuel
  rw [show ⌈((20 : ℕ) + 1 : ℚ) * 25 / 80⌉ = 7 by rw [Int.ceil_eq_iff] <;> norm_num]
  rfl

/-- With a 16-step spectrogram at 25 fps the loop emits a full window at
`i = 0` and then the (identical) clamped tail window at `i = 1`. -/
theorem melChunksT_25_len16 {α : Type} (mel : List α) (h : mel.length = 16) :
    melChunksT 25 mel = [mel, mel] := by
  have hfull : pySlice mel 0 (some (0 + 16)) = mel := by
    unfold pySlice pyIndex
    simp [h]
  have htail : pySlice mel ((mel.length : ℤ) - 16) none = mel := by
    unfold pySlice pyIndex
    simp [h]
  unfold melChunksT
  rw [h, chunkFuel_25_16]
  rw [show (7 : ℕ) = 6 + 1 by rfl,
    melChunksAux_step 25 mel 0 6 (by rw [melStart_25_0, h]; norm_num),
    show (6 : ℕ) = 5 + 1 by rfl,
    melChunksAux_stop 25 mel 1 5 (by rw [melStart_25_1, h]; norm_num)]
  rw [melStart_25_0, hfull, htail]
  rfl

/-- With a 20-step spectrogram at 25 fps the loop emits full windows at
`i = 0, 1` and the clamped tail window at `i = 2`: three windows. -/
theorem melChunksT_25_len20 {α : Type} (mel : List α) (h : mel.length = 20) :
    melChunksT 25 mel =
      [mel.take 16, (mel.take 19).drop 3, mel.drop 4] := by
  have h0 : pySlice mel 0 (some (0 + 16)) = mel.take 16 := by
    unfold pySlice pyIndex
    simp [h]
  have h1 : pySlice mel 3 (some (3 + 16)) = (mel.take 19).drop 3 := by
    unfold pySlice pyIndex
    simp [h]
  have htake : mel.take 20 = mel := by rw [← h]; exact List.take_length mel
  have htail : pySlice mel ((mel.length : ℤ) - 16) none = mel.drop 4 := by
    unfold pySlice pyIndex
    simp [h, htake]
  unfold melChunksT
  rw [h, chunkFuel_25_20]
  rw [show (8 : ℕ) = 7 + 1 by rfl,
    melChunksAux_step 25 mel 0 7 (by rw [melStart_25_0, h]; norm_num),
    show (7 : ℕ) = 6 + 1 by rfl,
    melChunksAux_step 25 mel 1 6 (by rw [melStart_25_1, h]; norm_num),
    show (6 : ℕ) = 5 + 1 by rfl,
    melChunksAux_stop 25 mel 2 5 (by rw [melStart_25_2, h]; norm_num)]
  rw [melStart_25_0, melStart_25_1, h0, h1, htail]
  rfl

/-! ### Face detection (`_detect_faces`, lines 385–414)

For each frame the detector oracle yields either `some` rectangle or
`none`.  The code pads the raw rectangle, clamps against the frame
bounds, and crops; a `none` anywhere raises a `ValueError` whose message
is a fixed string and in particular contains no frame index. -/

/-- Expansion of the raw detector rectangle by the pad amounts:
`rect[1] - pady1`, `rect[3] + pady2`, `rect[0] - padx1`,
`rect[2] + padx2`. -/
def padBox (p : Pads) (r : Rect) : Box :=
  ⟨r.y1 - p.pady1, r.y2 + p.pady2, r.x1 - p.padx1, r.x2 + p.padx2⟩

/-- Clamping of a box to the frame bounds: `max(0, ·)` on the low edges,
`min(shape, ·)` on the high edges. -/
def clampBox (h w : ℕ) (b : Box) : Box :=
  ⟨max 0 b.y1, min (h : ℤ) b.y2, max 0 b.x1, min (w : ℤ) b.x2⟩

/-- The pad-then-clamp bounding box computed for one detection. -/
def detectBox (p : Pads) (h w : ℕ) (r : Rect) : Box :=
  clampBox h w (padBox p r)

/-- A box lies within the bounds of an `h × w` frame. -/
def boxInBounds (h w : ℕ) (b : Box) : Prop :=
  0 ≤ b.y1 ∧ b.y2 ≤ (h : ℤ) ∧ 0 ≤ b.x1 ∧ b.x2 ≤ (w : ℤ)

instance (h w : ℕ) (b : Box) : Decidable (boxInBounds h w b) := by
  unfold boxInBounds
  infer_instance

/-- Crop `image[y1:y2, x1:x2]`: the cropped sub-image of a frame at a
(nonnegative, in-bounds) box. -/
def cropImage (img : Image) (b : Box) : Image :=
  { h := (b.y2 - b.y1).toNat
    w := (b.x2 - b.x1).toNat
    c := img.c
    pix := fun r c ch => img.pix (r + b.y1.toNat) (c + b.x1.toNat) ch }

/-- The exact `ValueError` message of `_detect_faces`; a constant, so it
names the failing condition and never a frame index. -/
def faceNotDetectedMsg : String :=
  "Face not detected in frame. Ensure the video contains a visible face in all frames."

/-- The result loop of `_detect_faces` over `zip(predictions, frames)`:
abort on the first missing detection, otherwise collect
`[image[y1:y2, x1:x2], (y1, y2, x1, x2)]` per frame. -/
def detectLoop (p : Pads) : List (Option Rect × Image) → Except String (List (Image × Box))
  | [] => .ok []
  | (none, _) :: _ => .error faceNotDetectedMsg
  | (some r, img) :: rest =>
    match detectLoop p rest with
    | .error e => .error e
    | .ok rs => .ok ((cropImage img (detectBox p img.h img.w r), detectBox p img.h img.w r) :: rs)

/-- Embedding of `_detect_faces`: the detector oracle supplies one optional rectangle
per frame (the batching into groups of 16 does not change which
rectangle belongs to which frame), then the loop above runs on
`zip(predictions, frames)`. -/
def detectFaces (frames : List Image) (preds : List (Option Rect)) (p : Pads) :
    Except String (List (Image × Box)) :=
  detectLoop p (preds.zip frames)

theorem detectLoop_error_of_none (p : Pads) :
    ∀ l : List (Option Rect × Image), (∃ pr ∈ l, pr.1 = none) →
      detectLoop p l = .error faceNotDetectedMsg := by
  intro l
  induction l with
  | nil => intro ⟨pr, hpr, _⟩; simp at hpr
  | cons hd tl ih =>
    intro ⟨pr, hpr, hnone⟩
    match hd with
    | (none, img) => rfl
    | (some r, img) =>
      rcases List.mem_cons.1 hpr with heq | htl
      · rw [heq] at hnone; simp at hnone
      · unfold detectLoop
        rw [ih ⟨pr, htl, hnone⟩]

theorem detectLoop_ok_of_some (p : Pads) :
    ∀ l : List (Option Rect × Image), (∀ pr ∈ l, pr.1.isSome = true) →
      ∃ rs, detectLoop p l = .ok rs ∧ rs.length = l.length := by
  intro l
  induction l with
  | nil => intro _; exact ⟨[], rfl, rfl⟩
  | cons hd tl ih =>
    intro hall
    match hd with
    | (none, img) =>
      have := hall (none, img) (List.mem_cons_self _ _)
      simp at this
    | (some r, img) =>
      obtain ⟨rs, hrs, hlen⟩ := ih (fun pr hpr => hall pr (List.mem_cons_of_mem _ hpr))
      have hstep : detectLoop p ((some r, img) :: tl) =
          .ok ((cropImage img (detectBox p img.h img.w r),
                detectBox p img.h img.w r) :: rs) := by
        unfold detectLoop
        rw [hrs]
      exact ⟨_, hstep, by simp [hlen]⟩

/-! ### Batch assembly (`_generate_batches`, lines 416–474)

An entry is one `(face, mel, frame, coords)` quadruple appended by the
loop body; `idx = i % len(frames)` selects the source frame, the face
crop is resized to `img_size × img_size`, and `frame_to_save` is a copy
of the source frame (value semantics in this embedding).  A batch is
flushed as soon as it reaches `batch_size`, and a non-empty final short
batch is flushed at the end.  The model is abstract in the mel-window
type `μ`.  `cv2.resize` is an external dependency, so it enters the
model as an explicit function argument constrained only by hypotheses
in the theorems that need them. -/

structure Entry (μ : Type) where
  img : Image
  mel : μ
  frame : Image
  coords : Box

/-- Default face/box pair used only as `List.getD` default. -/
def defaultFace : Image × Box := (defaultImage, ⟨0, 0, 0, 0⟩)

/-- The loop body of `_generate_batches` for mel index `i`. -/
def mkEntry {μ : Type} (resize : Image → ℕ → ℕ → Image) (frames : List Image)
    (results : List (Image × Box)) (imgSize : ℕ) (i : ℕ) (m : μ) : Entry μ :=
  { img := resize (results.getD (i % frames.length) defaultFace).1 imgSize imgSize
    mel := m
    frame := frames.getD (i % frames.length) defaultImage
    coords := (results.getD (i % frames.length) defaultFace).2 }

/-- The batching loop: accumulate entries, flush on reaching
`batch_size`, flush the remainder. -/
def generateBatchesAux {μ : Type} (mk : ℕ → μ → Entry μ) (bs : ℕ) :
    List μ → ℕ → List (Entry μ) → List (List (Entry μ))
  | [], _, acc => if 0 < acc.length then [acc] else []
  | m :: ms, i, acc =>
    if bs ≤ (acc ++ [mk i m]).length then
      (acc ++ [mk i m]) :: generateBatchesAux mk bs ms (i + 1) []
    else
      generateBatchesAux mk bs ms (i + 1) (acc ++ [mk i m])

/-- Embedding of `_generate_batches`, in the argument order of the source. -/
def generateBatches {μ : Type} (resize : Image → ℕ → ℕ → Image) (frames : List Image)
    (mels : List μ) (results : List (Image × Box)) (imgSize bs : ℕ) :
    List (List (Entry μ)) :=
  generateBatchesAux (mkEntry resize frames results imgSize) bs mels 0 []

/-- Flattening the produced batches recovers exactly one entry per mel
window, in order. -/
theorem generateBatchesAux_join {μ : Type} (mk : ℕ → μ → Entry μ) (bs : ℕ) :
    ∀ (ms : List μ) (i : ℕ) (acc : List (Entry μ)),
      (generateBatchesAux mk bs ms i acc).flatten =
        acc ++ (List.enumFrom i ms).map (fun p => mk p.1 p.2) := by
  intro ms
  induction ms with
  | nil =>
    intro i acc
    unfold generateBatchesAux
    by_cases h : 0 < acc.length
    · rw [if_pos h]; simp [List.enumFrom]
    · rw [if_neg h]
      have : acc = [] := by
        cases acc with
        | nil => rfl
        | cons a l => simp at h
      simp [this, List.enumFrom]
  | cons m ms ih =>
    intro i acc
    unfold generateBatchesAux
    by_cases h : bs ≤ (acc ++ [mk i m]).length
    · rw [if_pos h]
      simp only [List.flatten_cons, ih (i + 1) []]
      simp [List.enumFrom]
    · rw [if_neg h]
      rw [ih (i + 1) (acc ++ [mk i m])]
      simp [List.enumFrom]

theorem generateBatches_join {μ : Type} (resize : Image → ℕ → ℕ → Image)
    (frames : List Image) (mels : List μ) (results : List (Image × Box))
    (imgSize bs : ℕ) :
    (generateBatches resize frames mels results imgSize bs).flatten =
      (List.enumFrom 0 mels).map
        (fun p => mkEntry resize frames results imgSize p.1 p.2) := by
  unfold generateBatches
  rw [generateBatchesAux_join]
  simp

/-- Every entry of every produced batch is the loop body applied to some
mel index. -/
theorem generateBatches_mem {μ : Type} (resize : Image → ℕ → ℕ → Image)
    (frames : List Image) (mels : List μ) (results : List (Image × Box))
    (imgSize bs : ℕ) (b : List (Entry μ))
    (hb : b ∈ generateBatches resize frames mels results imgSize bs)
    (e : Entry μ) (he : e ∈ b) :
    ∃ i m, (i, m) ∈ List.enumFrom 0 mels ∧
      e = mkEntry resize frames results imgSize i m := by
  have hjoin : e ∈ (generateBatches resize frames mels results imgSize bs).flatten :=
    List.mem_flatten.2 ⟨b, hb, he⟩
  rw [generateBatches_join] at hjoin
  obtain ⟨p, hp, hpe⟩ := List.mem_map.1 hjoin
  exact ⟨p.1, p.2, hp, hpe.symm⟩

/-! ### Masking, concatenation and normalisation (lines 443–474) -/

/-- Masking `img_masked[:, img_size // 2:] = 0`: zero every pixel in rows
`≥ img_size / 2`, across all columns and channels. -/
def maskLower (imgSize : ℕ) (img : Image) : Image :=
  { img with pix := fun r c ch => if imgSize / 2 ≤ r then 0 else img.pix r c ch }

/-- Concatenation `np.concatenate((img_masked, img_batch), axis=3)` per entry: masked
channels first, then the unmasked ones. -/
def concatChannels (m u : Image) : Image :=
  { h := m.h
    w := m.w
    c := m.c + u.c
    pix := fun r c ch => if ch < m.c then m.pix r c ch else u.pix r c (ch - m.c) }

/-- Normalisation `/ 255.0` on every pixel. -/
def div255 (img : Image) : Image :=
  { img with pix := fun r c ch => img.pix r c ch / 255 }

/-- The batch-level composite `np.concatenate((img_masked, img_batch),
axis=3) / 255.0` where `img_masked` is a copy of the batch with the
lower half zeroed. -/
def batchCompositeImgs (imgSize : ℕ) (imgs : List Image) : List Image :=
  ((imgs.map (maskLower imgSize)).zip imgs).map
    (fun mu => div255 (concatChannels mu.1 mu.2))

theorem batchCompositeImgs_eq_map (imgSize : ℕ) (imgs : List Image) :
    batchCompositeImgs imgSize imgs =
      imgs.map (fun u => div255 (concatChannels (maskLower imgSize u) u)) := by
  unfold batchCompositeImgs
  induction imgs with
  | nil => rfl
  | cons a l ih => simpa using ih

/-! ### Post-processing and compositing (lines 361–367) -/

/-- Scaling `pred ... * 255.0` per pixel. -/
def mul255 (img : Image) : Image :=
  { img with pix := fun r c ch => img.pix r c ch * 255 }

/-- Cast `astype(np.uint8)`: truncate and wrap each (nonnegative) pixel value
into a byte. -/
def castU8 (img : Image) : Image :=
  { img with pix := fun r c ch => ((⌊img.pix r c ch⌋ % 256 : ℤ) : ℚ) }

/-- Paste `f[y1:y2, x1:x2] = p`: write `p` into a copy of `f` at the box; every
coordinate outside the box keeps the pixel of `f`. -/
def pasteBox (f p : Image) (b : Box) : Image :=
  { f with pix := fun r c ch =>
      if b.y1 ≤ (r : ℤ) ∧ (r : ℤ) < b.y2 ∧ b.x1 ≤ (c : ℤ) ∧ (c : ℤ) < b.x2 then
        p.pix ((r : ℤ) - b.y1).toNat ((c : ℤ) - b.x1).toNat ch
      else f.pix r c ch }

/-- One iteration of `for p, f, c in zip(pred, frame_batch, coords_batch)`:
scale the prediction back to bytes, resize it to the box dimensions
`(x2 - x1, y2 - y1)`, and paste it into the (copied) full frame. -/
def compositeEntry {μ : Type} (resize : Image → ℕ → ℕ → Image) (e : Entry μ)
    (p : Image) : Image :=
  pasteBox e.frame
    (resize (castU8 (mul255 p))
      ((e.coords.x2 - e.coords.x1).toNat) ((e.coords.y2 - e.coords.y1).toNat))
    e.coords

/-- Per-batch inference and recombination: build the model inputs, call
the opaque model, post-process each prediction into a finished frame. -/
def inferBatch {μ : Type} (resize : Image → ℕ → ℕ → Image)
    (infer : List Image → List μ → List Image) (imgSize : ℕ)
    (b : List (Entry μ)) : List Image :=
  ((infer (batchCompositeImgs imgSize (b.map (fun e => e.img)))
      (b.map (fun e => e.mel))).zip b).map
    (fun pe => compositeEntry resize pe.2 pe.1)

/-! ### The native pipeline with an effect trace
(`_process_video_native`, lines 246–383)

External effects are recorded as events.  Frame reading precedes mel
decoding, which precedes detection, which precedes any writing of output
frames — exactly the statement order of the source.  `melOk` is the
boolean outcome of the `np.isnan` validation (floating-point NaN has no
rational counterpart, so the check's outcome is an input of the model).
The writer, the ffmpeg mux and the temp-file cleanup do not affect the
produced frame sequence and are not modelled beyond the `writeOutput`
event. -/

inductive Ev where
  | readFrames
  | decodeAudio
  | detect
  | writeOutput
  | nativeAttempt
  | subprocessAttempt
  | copyFile (src dst : String)
deriving DecidableEq

/-- Inputs of `_process_video_native` as read from the outside world:
the face path (for the error text), decoded frames, detected frame rate,
mel columns, and the NaN-check outcome. -/
structure NativeIn where
  facePath : String
  frames : List Image
  fps : ℚ
  mel : List (List ℚ)
  melOk : Bool

def noFramesMsg (p : String) : String := "Could not read frames from " ++ p

def nanMsg : String := "Mel spectrogram contains NaN values"

/-- Embedding of `_process_video_native`: read frames, decode audio, chunk the mel,
trim the frames to the chunk count, detect faces, batch, infer, and
composite.  Returns the produced output frames (or the raised error)
plus the event trace. -/
def processVideoNative (resize : Image → ℕ → ℕ → Image)
    (infer : List Image → List (List (List ℚ)) → List Image)
    (inp : NativeIn) (preds : List (Option Rect)) :
    Except String (List Image) × List Ev :=
  if inp.frames.isEmpty then
    (.error (noFramesMsg inp.facePath), [Ev.readFrames])
  else if inp.melOk = false then
    (.error nanMsg, [Ev.readFrames, Ev.decodeAudio])
  else
    match detectFaces (inp.frames.take (melChunksT inp.fps inp.mel).length) preds
        wav2lipPads with
    | .error e => (.error e, [Ev.readFrames, Ev.decodeAudio, Ev.detect])
    | .ok results =>
      (.ok (((generateBatches resize (inp.frames.take (melChunksT inp.fps inp.mel).length)
          (melChunksT inp.fps inp.mel) results 96 128).map
            (inferBatch resize infer 96)).flatten),
       [Ev.readFrames, Ev.decodeAudio, Ev.detect, Ev.writeOutput])

/-! ### Orchestration (`generate`, `_run_wav2lip`,
`_run_wav2lip_subprocess`, lines 63–155 and 476–520)

The orchestrator's interactions with the file system and the external
inference process are captured by an environment record; every run also
returns the list of performed effects.  `subprocessOk` aggregates the
subprocess-strategy failure modes (missing `inference.py`, non-zero exit
status, missing output file); `nativeEnvOk` aggregates the native
failure modes occurring before `_process_video_native` produces its own
result (imports, device setup, model loading). -/

structure Env where
  audioExists : Bool
  audioPath : String
  /-- Resolved avatar file: `none` when `_get_avatar_path` raises, else
  the path and its (`pathlib`) suffix. -/
  avatar : Option (String × String)
  checkpointExists : Bool
  checkpointPath : String
  nativeEnvOk : Bool
  native : NativeIn
  preds : List (Option Rect)
  subprocessOk : Bool
  copyOk : Bool
  jobId : String

/-- ASCII lowercase of one character (the compared suffixes are ASCII,
so this coincides with Python's `str.lower` here). -/
def charLower (c : Char) : Char :=
  if 'A' ≤ c ∧ c ≤ 'Z' then Char.ofNat (c.toNat + 32) else c

/-- Lowercasing `.lower()` of a path suffix. -/
def strLower (s : String) : String := ⟨s.data.map charLower⟩

/-- Test `face_path.suffix.lower() in ['.jpg', '.jpeg', '.png']`. -/
def isImageSuffix (s : String) : Bool :=
  strLower s = ".jpg" ∨ strLower s = ".jpeg" ∨ strLower s = ".png"

def outputPathFor (jobId : String) : String := "temp/video/" ++ jobId ++ "_lipsync.mp4"

def checkpointMissingMsg (p : String) : String := "Wav2Lip model not found at " ++ p

def audioMissingMsg (p : String) : String := "Audio file not found: " ++ p

def avatarMissingMsg : String := "Avatar not found"

def subprocessFailedMsg : String := "Wav2Lip inference failed"

def nativeEnvFailedMsg : String := "Native Wav2Lip environment failure"

def copyFailedMsg : String := "Passthrough copy failed"

/-- Embedding of `_run_wav2lip_subprocess`: one external inference attempt. -/
def runSubprocess (env : Env) : Except String Unit × List Ev :=
  (if env.subprocessOk then .ok () else .error subprocessFailedMsg,
   [Ev.subprocessAttempt])

/-- Embedding of `_run_wav2lip`: checkpoint precondition first; then still images go
straight to the subprocess strategy; otherwise the native strategy is
tried and any failure falls back to the subprocess strategy. -/
def runWav2lip (resize : Image → ℕ → ℕ → Image)
    (infer : List Image → List (List (List ℚ)) → List Image)
    (env : Env) (sfx : String) : Except String Unit × List Ev :=
  if env.checkpointExists = false then
    (.error (checkpointMissingMsg env.checkpointPath), [])
  else if isImageSuffix sfx then
    runSubprocess env
  else if env.nativeEnvOk = false then
    ((runSubprocess env).1, Ev.nativeAttempt :: (runSubprocess env).2)
  else
    match processVideoNative resize infer env.native env.preds with
    | (.ok _, tr) => (.ok (), Ev.nativeAttempt :: tr)
    | (.error _, tr) =>
      ((runSubprocess env).1, (Ev.nativeAttempt :: tr) ++ (runSubprocess env).2)

/-- Embedding of `generate`: audio precondition, avatar resolution, then the
`_run_wav2lip` attempt; on any failure the original avatar file is
copied verbatim to the output path, and only a failing copy escapes. -/
def generate (resize : Image → ℕ → ℕ → Image)
    (infer : List Image → List (List (List ℚ)) → List Image)
    (env : Env) : Except String String × List Ev :=
  if env.audioExists = false then
    (.error (audioMissingMsg env.audioPath), [])
  else
    match env.avatar with
    | none => (.error avatarMissingMsg, [])
    | some (apath, sfx) =>
      match runWav2lip resize infer env sfx with
      | (.ok _, tr) => (.ok (outputPathFor env.jobId), tr)
      | (.error _, tr) =>
        if env.copyOk then
          (.ok (outputPathFor env.jobId),
           tr ++ [Ev.copyFile apath (outputPathFor env.jobId)])
        else
          (.error copyFailedMsg, tr ++ [Ev.copyFile apath (outputPathFor env.jobId)])

/-! ### Checkpoint key normalisation (`_load_wav2lip_model`, lines 234–240)

`new_state_dict[k.replace('module.', '')] = v`: Python `str.replace`
removes every non-overlapping occurrence of `'module.'`, scanning left
to right — not only a leading prefix.  Keys are modelled as character
lists. -/

/-- Embedding of `k.replace('module.', '')` specialised to the fixed pattern. -/
def stripModuleAll : List Char → List Char
  | [] => []
  | c :: cs =>
    if "module.".data.isPrefixOf (c :: cs) then stripModuleAll (cs.drop 6)
    else c :: stripModuleAll cs
termination_by l => l.length
decreasing_by
  · simp only [List.length_drop, List.length_cons]
    omega
  · simp only [List.length_cons]
    omega

/-- The rebuilt state dict: every key transformed, values untouched
(association-list model of the Python dict). -/
def newStateDict {V : Type} (sd : List (List Char × V)) : List (List Char × V) :=
  sd.map (fun kv => (stripModuleAll kv.1, kv.2))

theorem isPrefixOf_exists_append :
    ∀ p l : List Char, p.isPrefixOf l = true → ∃ t, l = p ++ t := by
  intro p
  induction p with
  | nil => intro l _; exact ⟨l, rfl⟩
  | cons a as ih =>
    intro l h
    cases l with
    | nil => simp [List.isPrefixOf] at h
    | cons b bs =>
      simp only [List.isPrefixOf, Bool.and_eq_true, beq_iff_eq] at h
      obtain ⟨hab, hrest⟩ := h
      obtain ⟨t, ht⟩ := ih bs hrest
      exact ⟨t, by rw [← hab, ht]; rfl⟩

theorem isPrefixOf_append_self (p t : List Char) : p.isPrefixOf (p ++ t) = true := by
  induction p with
  | nil => simp [List.isPrefixOf]
  | cons a as ih => simp [List.isPrefixOf, ih]

theorem stripModuleAll_of_not_infix :
    ∀ k : List Char, ¬ ("module.".data <:+: k) → stripModuleAll k = k := by
  intro k
  induction k with
  | nil => intro _; simp [stripModuleAll]
  | cons c cs ih =>
    intro hni
    have hnp : ¬ ("module.".data.isPrefixOf (c :: cs) = true) := by
      intro hpre
      obtain ⟨t, ht⟩ := isPrefixOf_exists_append _ _ hpre
      exact hni ⟨[], t, by rw [ht]; rfl⟩
    have hti : ¬ ("module.".data <:+: cs) := by
      intro hinf
      exact hni (List.infix_cons hinf)
    rw [stripModuleAll, if_neg hnp, ih hti]

theorem stripModuleAll_append (rest : List Char) :
    stripModuleAll ("module.".data ++ rest) = stripModuleAll rest := by
  have hpre : "module.".data.isPrefixOf ('m' :: ("odule.".data ++ rest)) = true :=
    isPrefixOf_append_self "module.".data rest
  rw [show ("module.".data ++ rest) = 'm' :: ("odule.".data ++ rest) from rfl,
    stripModuleAll, if_pos hpre]
  congr 1

theorem batchCompositeImgs_length (imgSize : ℕ) (imgs : List Image) :
    (batchCompositeImgs imgSize imgs).length = imgs.length := by
  rw [batchCompositeImgs_eq_map, List.length_map]

theorem inferBatch_length {μ : Type} (resize : Image → ℕ → ℕ → Image)
    (infer : List Image → List μ → List Image) (imgSize : ℕ)
    (hinfer : ∀ imgs ms, (infer imgs ms).length = imgs.length)
    (b : List (Entry μ)) : (inferBatch resize infer imgSize b).length = b.length := by
  unfold inferBatch
  rw [List.length_map, List.length_zip, hinfer, batchCompositeImgs_length,
    List.length_map, Nat.min_self]

/-! ## The claims -/

/-- C8: the pad-then-clamp bounding-box computation of `_detect_faces`
is deterministic — identical detector rectangles and pad configuration
produce identical boxes — and clamping is idempotent: a box already
within the frame bounds is left unchanged by the clamp. -/
theorem padClamp_deterministic_and_clamp_idempotent :
    (∀ (p₁ p₂ : Pads) (r₁ r₂ : Rect) (h w : ℕ), p₁ = p₂ → r₁ = r₂ →
      detectBox p₁ h w r₁ = detectBox p₂ h w r₂) ∧
    (∀ (h w : ℕ) (b : Box), boxInBounds h w b → clampBox h w b = b) := by
  constructor
  · intro p₁ p₂ r₁ r₂ h w hp hr
    rw [hp, hr]
  · intro h w b hb
    obtain ⟨h1, h2, h3, h4⟩ := hb
    cases b
    simp only [clampBox, Box.mk.injEq] at h1 h2 h3 h4 ⊢
    refine ⟨?_, ?_, ?_, ?_⟩ <;> omega

/-- Witness for C8 at a concrete in-bounds box inside a 100×200 frame. -/
theorem padClamp_deterministic_and_clamp_idempotent_witness :
    boxInBounds 100 200 ⟨1, 50, 2, 60⟩ ∧
      clampBox 100 200 ⟨1, 50, 2, 60⟩ = (⟨1, 50, 2, 60⟩ : Box) := by
  constructor
  · decide
  · exact padClamp_deterministic_and_clamp_idempotent.2 100 200 ⟨1, 50, 2, 60⟩ (by decide)

/-- C9 counterexample: the key `a.module.b` does not carry the
`module.` prefix, yet `k.replace('module.', '')` still rewrites it to
`a.b`, so "names without the prefix are bound unchanged" fails. -/
theorem stripModule_changes_nonprefixed_key :
    stripModuleAll "a.module.b".data = "a.b".data ∧
    ¬ ("module.".data <+: "a.module.b".data) ∧
    "a.module.b".data ≠ "a.b".data := by
  refine ⟨?_, by decide, by decide⟩
  simp [stripModuleAll, List.isPrefixOf]

/-- An example checkpoint state dict (keys as character lists). -/
def exStateDict : List (List Char × ℕ) :=
  [("module.conv.weight".data, 1), ("fc.bias".data, 2)]

/-- C9 amended: loading removes every occurrence of the substring
`module.` from each parameter name (values bound untouched); in
particular a leading `module.` prefix is stripped, and a name with no
occurrence at all is bound unchanged.  (As stated the claim fails: a
name containing `module.` other than as a prefix is also rewritten —
see the counterexample.) -/
theorem stateDict_strips_module_occurrences {V : Type} (sd : List (List Char × V))
    (k : List Char) (v : V) (hkv : (k, v) ∈ sd) :
    (stripModuleAll k, v) ∈ newStateDict sd ∧
    (∀ rest, k = "module.".data ++ rest → stripModuleAll k = stripModuleAll rest) ∧
    (¬ ("module.".data <:+: k) → stripModuleAll k = k) := by
  refine ⟨?_, ?_, ?_⟩
  · unfold newStateDict
    exact List.mem_map.2 ⟨(k, v), hkv, rfl⟩
  · intro rest hk
    rw [hk, stripModuleAll_append]
  · exact stripModuleAll_of_not_infix k

/-- Witness for C9's amended statement on a concrete state dict. -/
theorem stateDict_strips_module_occurrences_witness :
    ("module.conv.weight".data, 1) ∈ exStateDict ∧
    ((stripModuleAll "module.conv.weight".data, 1) ∈ newStateDict exStateDict ∧
     (∀ rest, "module.conv.weight".data = "module.".data ++ rest →
       stripModuleAll "module.conv.weight".data = stripModuleAll rest) ∧
     (¬ ("module.".data <:+: "module.conv.weight".data) →
       stripModuleAll "module.conv.weight".data = "module.conv.weight".data)) :=
  ⟨by decide,
   stateDict_strips_module_occurrences exStateDict "module.conv.weight".data 1 (by decide)⟩

/-- C10: for every frame rate strictly greater than 0 and every
non-empty mel spectrogram, the mel-chunking loop terminates (some fuel
suffices) and produces at least one audio window, and when the
spectrogram has at least 16 time steps every produced window has width
exactly 16. -/
theorem melChunking_terminates_and_fixed_width (fps : ℚ) (mel : List (List ℚ))
    (hfps : 0 < fps) (hne : 1 ≤ mel.length) :
    ∃ fuel chunks, melChunksAux fps mel 0 fuel = some chunks ∧
      1 ≤ chunks.length ∧
      (16 ≤ mel.length → ∀ ch ∈ chunks, ch.length = 16) := by
  obtain ⟨chunks, haux, -⟩ := melChunksT_eq_aux fps mel hfps
  refine ⟨chunkFuel fps mel.length, chunks, haux, ?_, ?_⟩
  · have := melChunksAux_ne_nil fps mel (chunkFuel fps mel.length) 0 chunks haux
    cases chunks with
    | nil => exact absurd rfl this
    | cons a l => simp
  · intro h16 ch hch
    rcases melChunksAux_mem_shape fps mel hfps (chunkFuel fps mel.length) 0 chunks haux
        ch hch with ⟨s, hs0, hsle, heq⟩ | heq
    · rw [heq]
      exact pySlice_length_full mel s hs0 hsle
    · rw [heq]
      exact pySlice_length_tail mel h16

/-- An example 16-step spectrogram (16 time columns). -/
def exMel16 : List (List ℚ) := List.replicate 16 []

/-- Witness for C10 at `fps = 25` and a 16-step spectrogram. -/
theorem melChunking_terminates_and_fixed_width_witness :
    (0 : ℚ) < 25 ∧ 1 ≤ exMel16.length ∧
    (∃ fuel chunks, melChunksAux 25 exMel16 0 fuel = some chunks ∧
      1 ≤ chunks.length ∧
      (16 ≤ exMel16.length → ∀ ch ∈ chunks, ch.length = 16)) :=
  ⟨by norm_num, by decide,
   melChunking_terminates_and_fixed_width 25 exMel16 (by norm_num) (by decide)⟩

/-- C6: for every batch entry, in every batch including a short final
batch, the compositor resizes the face crop to 96×96, zeroes the lower
half (rows ≥ 48) of a copy while the unmasked copy stays intact,
concatenates masked-then-unmasked along the channel axis to 6 channels,
and divides by 255 so all values lie in `[0, 1]`.  The first conjunct
identifies the batch-level numpy computation with its per-entry,
position-preserving form. -/
theorem batchCompositor_masks_and_normalizes {μ : Type}
    (resize : Image → ℕ → ℕ → Image)
    (hdim : ∀ im a b, (resize im a b).h = b ∧ (resize im a b).w = a ∧
      (resize im a b).c = im.c)
    (hrange : ∀ im a b, (∀ r c ch, 0 ≤ im.pix r c ch ∧ im.pix r c ch ≤ 255) →
      (∀ r c ch, 0 ≤ (resize im a b).pix r c ch ∧ (resize im a b).pix r c ch ≤ 255))
    (frames : List Image) (results : List (Image × Box)) (mels : List μ) (bs : ℕ)
    (hframes : frames ≠ [])
    (hlen : results.length = frames.length)
    (hresults : ∀ fb ∈ results, fb.1.c = 3 ∧
      ∀ r c ch, 0 ≤ fb.1.pix r c ch ∧ fb.1.pix r c ch ≤ 255) :
    ∀ b ∈ generateBatches resize frames mels results 96 bs,
      batchCompositeImgs 96 (b.map (fun e => e.img)) =
        b.map (fun e => div255 (concatChannels (maskLower 96 e.img) e.img)) ∧
      ∀ e ∈ b,
        e.img.h = 96 ∧ e.img.w = 96 ∧ e.img.c = 3 ∧
        (div255 (concatChannels (maskLower 96 e.img) e.img)).c = 6 ∧
        (∀ r c ch, 48 ≤ r → ch < 3 →
          (div255 (concatChannels (maskLower 96 e.img) e.img)).pix r c ch = 0) ∧
        (∀ r c ch, (div255 (concatChannels (maskLower 96 e.img) e.img)).pix r c (ch + 3) =
          e.img.pix r c ch / 255) ∧
        (∀ r c ch, 0 ≤ (div255 (concatChannels (maskLower 96 e.img) e.img)).pix r c ch ∧
          (div255 (concatChannels (maskLower 96 e.img) e.img)).pix r c ch ≤ 1) := by
  intro b hb
  constructor
  · rw [batchCompositeImgs_eq_map, List.map_map]
    rfl
  · intro e he
    obtain ⟨i, m, _, he'⟩ := generateBatches_mem resize frames mels results 96 bs b hb e he
    subst he'
    have hidx : i % frames.length < frames.length :=
      Nat.mod_lt _ (List.length_pos.2 hframes)
    have hidxr : i % frames.length < results.length := by rw [hlen]; exact hidx
    have hmemr : results.getD (i % frames.length) defaultFace ∈ results := by
      rw [List.getD_eq_getElem _ _ hidxr]
      exact List.getElem_mem hidxr
    obtain ⟨hc3, hcrop_range⟩ := hresults _ hmemr
    have himg : (mkEntry resize frames results 96 i m).img =
        resize (results.getD (i % frames.length) defaultFace).1 96 96 := rfl
    obtain ⟨hh, hw, hc⟩ := hdim (results.getD (i % frames.length) defaultFace).1 96 96
    have himgc : (mkEntry resize frames results 96 i m).img.c = 3 := by
      rw [himg, hc, hc3]
    have himg_range : ∀ r c ch,
        0 ≤ (mkEntry resize frames results 96 i m).img.pix r c ch ∧
          (mkEntry resize frames results 96 i m).img.pix r c ch ≤ 255 := by
      rw [himg]
      exact hrange _ 96 96 hcrop_range
    refine ⟨by rw [himg, hh], by rw [himg, hw], himgc, ?_, ?_, ?_, ?_⟩
    · simp [div255, concatChannels, maskLower, himgc]
    · intro r c ch hr hch
      simp only [div255, concatChannels, maskLower]
      rw [himgc, if_pos hch, if_pos (by omega : 96 / 2 ≤ r)]
      norm_num
    · intro r c ch
      simp only [div255, concatChannels, maskLower]
      rw [himgc, if_neg (by omega : ¬ (ch + 3 < 3))]
      simp
    · intro r c ch
      obtain ⟨hlo, hhi⟩ := himg_range r c (ch + 3 - 3)
      obtain ⟨hlo2, hhi2⟩ := himg_range r c ch
      simp only [div255, concatChannels, maskLower]
      rw [himgc]
      by_cases hch : ch < 3
      · rw [if_pos hch]
        by_cases hr : 96 / 2 ≤ r
        · rw [if_pos hr]
          norm_num
        · rw [if_neg hr]
          constructor <;> [positivity; linarith]
      · obtain ⟨hlo3, hhi3⟩ := himg_range r c (ch - 3)
        rw [if_neg hch]
        constructor <;> [positivity; linarith]

/-- Shared concrete objects for the batch-level witnesses. -/
def exResize : Image → ℕ → ℕ → Image := fun im a b => ⟨b, a, im.c, im.pix⟩

def exCrop : Image := ⟨2, 2, 3, fun _ _ _ => 7⟩

def exFrame : Image := ⟨4, 4, 3, fun _ _ _ => 10⟩

def exResults : List (Image × Box) := [(exCrop, ⟨0, 2, 0, 2⟩)]

def exFrames : List Image := [exFrame]

def exMelsC6 : List ℕ := [0, 1, 2]

/-- Witness for C6: three mel windows at batch size 2, so the run ends
in a short final batch. -/
theorem batchCompositor_masks_and_normalizes_witness :
    exFrames ≠ [] ∧ exResults.length = exFrames.length ∧
    (∀ b ∈ generateBatches exResize exFrames exMelsC6 exResults 96 2,
      batchCompositeImgs 96 (b.map (fun e => e.img)) =
        b.map (fun e => div255 (concatChannels (maskLower 96 e.img) e.img)) ∧
      ∀ e ∈ b,
        e.img.h = 96 ∧ e.img.w = 96 ∧ e.img.c = 3 ∧
        (div255 (concatChannels (maskLower 96 e.img) e.img)).c = 6 ∧
        (∀ r c ch, 48 ≤ r → ch < 3 →
          (div255 (concatChannels (maskLower 96 e.img) e.img)).pix r c ch = 0) ∧
        (∀ r c ch, (div255 (concatChannels (maskLower 96 e.img) e.img)).pix r c (ch + 3) =
          e.img.pix r c ch / 255) ∧
        (∀ r c ch, 0 ≤ (div255 (concatChannels (maskLower 96 e.img) e.img)).pix r c ch ∧
          (div255 (concatChannels (maskLower 96 e.img) e.img)).pix r c ch ≤ 1)) := by
  refine ⟨by simp [exFrames], rfl, ?_⟩
  apply batchCompositor_masks_and_normalizes exResize
    (fun im a b => ⟨rfl, rfl, rfl⟩)
    (fun im a b h r c ch => h r c ch)
    exFrames exResults exMelsC6 2 (by simp [exFrames]) rfl
  intro fb hfb
  simp only [exResults, List.mem_singleton] at hfb
  subst hfb
  exact ⟨rfl, fun r c ch => by norm_num [exCrop]⟩

/-- C7: for every batch entry the compositing loop pastes the (resized)
predicted region into a copy of the original full frame exactly at the
entry's bounding box, so every pixel outside the box equals the
corresponding pixel of the source frame, and the stored frame sequence
is untouched: the equality is against the original `frames` list
element itself (the loop writes into `frames[idx].copy()`, modelled by
value semantics). -/
theorem compositing_preserves_pixels_outside_box {μ : Type}
    (resize : Image → ℕ → ℕ → Image) (frames : List Image) (mels : List μ)
    (results : List (Image × Box)) (imgSize bs : ℕ)
    (hframes : frames ≠ []) :
    ∀ b ∈ generateBatches resize frames mels results imgSize bs, ∀ e ∈ b,
      ∃ idx, idx < frames.length ∧
        e.frame = frames.getD idx defaultImage ∧
        e.coords = (results.getD idx defaultFace).2 ∧
        ∀ (p : Image) (r c ch : ℕ),
          ¬ (e.coords.y1 ≤ (r : ℤ) ∧ (r : ℤ) < e.coords.y2 ∧
             e.coords.x1 ≤ (c : ℤ) ∧ (c : ℤ) < e.coords.x2) →
          (compositeEntry resize e p).pix r c ch =
            (frames.getD idx defaultImage).pix r c ch := by
  intro b hb e he
  obtain ⟨i, m, _, he'⟩ := generateBatches_mem resize frames mels results imgSize bs b hb e he
  subst he'
  refine ⟨i % frames.length, Nat.mod_lt _ (List.length_pos.2 hframes), rfl, rfl, ?_⟩
  intro p r c ch hout
  simp only [compositeEntry, pasteBox]
  rw [if_neg hout]
  rfl

/-- Witness for C7 at one concrete batch and entry. -/
theorem compositing_preserves_pixels_outside_box_witness :
    exFrames ≠ [] ∧
    (∀ b ∈ generateBatches exResize exFrames exMelsC6 exResults 96 2, ∀ e ∈ b,
      ∃ idx, idx < exFrames.length ∧
        e.frame = exFrames.getD idx defaultImage ∧
        e.coords = (exResults.getD idx defaultFace).2 ∧
        ∀ (p : Image) (r c ch : ℕ),
          ¬ (e.coords.y1 ≤ (r : ℤ) ∧ (r : ℤ) < e.coords.y2 ∧
             e.coords.x1 ≤ (c : ℤ) ∧ (c : ℤ) < e.coords.x2) →
          (compositeEntry exResize e p).pix r c ch =
            (exFrames.getD idx defaultImage).pix r c ch) :=
  ⟨by simp [exFrames],
   compositing_preserves_pixels_outside_box exResize exFrames exMelsC6 exResults 96 2
     (by simp [exFrames])⟩

/-- Helper: when the native pipeline succeeds, the number of produced
output frames equals the number of mel windows — one output frame per
audio window, regardless of how many source frames exist. -/
theorem processVideoNative_count (resize : Image → ℕ → ℕ → Image)
    (infer : List Image → List (List (List ℚ)) → List Image)
    (hinfer : ∀ imgs ms, (infer imgs ms).length = imgs.length)
    (inp : NativeIn) (preds : List (Option Rect))
    (hframes : inp.frames ≠ []) (hmel : inp.melOk = true)
    (hpreds : ∀ pr ∈ preds, pr.isSome = true) :
    (processVideoNative resize infer inp preds).1.map List.length =
      Except.ok (melChunksT inp.fps inp.mel).length := by
  obtain ⟨res, hres, -⟩ := detectLoop_ok_of_some wav2lipPads
    (preds.zip (inp.frames.take (melChunksT inp.fps inp.mel).length))
    (fun pr hpr => hpreds pr.1 (List.of_mem_zip hpr).1)
  have hdet : detectFaces (inp.frames.take (melChunksT inp.fps inp.mel).length) preds
      wav2lipPads = .ok res := hres
  unfold processVideoNative
  rw [if_neg (by simp [hframes]), if_neg (by simp [hmel]), hdet]
  simp only [Except.map]
  congr 1
  rw [List.length_flatten, List.map_map]
  have hcomp : List.length ∘ inferBatch resize infer 96 =
      (List.length : List (Entry (List (List ℚ))) → ℕ) :=
    funext (inferBatch_length resize infer 96 hinfer)
  rw [hcomp, ← List.length_flatten, generateBatches_join, List.length_map,
    List.enumFrom_length]

/-- C1 amended: for every valid input the native pipeline produces
exactly one output frame per available audio window
(`availableAudioWindows = (melChunksT fps mel).length`).  When the
window count does not exceed the source frame count this equals
`min(availableAudioWindows, sourceFrameCount)` and the video is
truncated to match the audio; but when the audio yields more windows
than there are source frames, frames are reused cyclically
(`idx = i % len(frames)`) and the output count is the window count,
which then exceeds the source frame count — the claimed
`min(availableAudioWindows, sourceFrameCount)` fails there (see the
counterexample).  The output count never exceeds the window count. -/
theorem nativeOutput_count_eq_windows (resize : Image → ℕ → ℕ → Image)
    (infer : List Image → List (List (List ℚ)) → List Image)
    (hinfer : ∀ imgs ms, (infer imgs ms).length = imgs.length)
    (inp : NativeIn) (preds : List (Option Rect))
    (hframes : inp.frames ≠ []) (hmel : inp.melOk = true)
    (hpreds : ∀ pr ∈ preds, pr.isSome = true) :
    ∃ outs, (processVideoNative resize infer inp preds).1 = .ok outs ∧
      outs.length = (melChunksT inp.fps inp.mel).length ∧
      ((melChunksT inp.fps inp.mel).length ≤ inp.frames.length →
        outs.length = min (melChunksT inp.fps inp.mel).length inp.frames.length) := by
  have h := processVideoNative_count resize infer hinfer inp preds hframes hmel hpreds
  cases hret : (processVideoNative resize infer inp preds).1 with
  | error e => rw [hret] at h; simp [Except.map] at h
  | ok outs =>
    rw [hret] at h
    simp only [Except.map, Except.ok.injEq] at h
    exact ⟨outs, rfl, h, fun hle => by omega⟩

/-- Opaque-model stand-in used by concrete evaluations: returns its
image batch unchanged (length-preserving, as required). -/
def exInfer : List Image → List (List (List ℚ)) → List Image := fun imgs _ => imgs

/-- A 20-step spectrogram: at 25 fps it yields three audio windows. -/
def exMel20 : List (List ℚ) := List.replicate 20 []

/-- One-frame video paired with the 20-step spectrogram. -/
def exNativeIn1 : NativeIn := ⟨"avatar.mp4", [exFrame], 25, exMel20, true⟩

def exPredsSome : List (Option Rect) := [some ⟨0, 0, 2, 2⟩]

/-- C1 counterexample: a valid 1-frame video with audio yielding 3
windows produces 3 output frames, but
`min(availableAudioWindows, sourceFrameCount) = 1` — the claimed output
count is wrong whenever the audio outlasts the video, because the code
cycles frames (`idx = i % len(frames)`) instead of stopping. -/
theorem nativeOutput_count_counterexample :
    exNativeIn1.frames.length = 1 ∧
    (melChunksT exNativeIn1.fps exNativeIn1.mel).length = 3 ∧
    (processVideoNative exResize exInfer exNativeIn1 exPredsSome).1.map List.length =
      Except.ok 3 ∧
    (3 : ℕ) ≠ min 3 1 := by
  have h3 : (melChunksT exNativeIn1.fps exNativeIn1.mel).length = 3 := by
    rw [show exNativeIn1.fps = (25 : ℚ) from rfl,
      show exNativeIn1.mel = exMel20 from rfl,
      melChunksT_25_len20 exMel20 (by simp [exMel20])]
    rfl
  refine ⟨rfl, h3, ?_, by decide⟩
  rw [processVideoNative_count exResize exInfer (fun imgs ms => rfl) exNativeIn1
    exPredsSome (by simp [exNativeIn1, exFrame]) rfl (by decide), h3]

/-- A three-frame video paired with the 16-step spectrogram (two audio
windows): the regime where the original claim's `min` is correct. -/
def exNativeIn2 : NativeIn := ⟨"avatar2.mp4", [exFrame, exFrame, exFrame], 25, exMel16, true⟩

def exPredsSome3 : List (Option Rect) :=
  [some ⟨0, 0, 2, 2⟩, some ⟨0, 0, 2, 2⟩, some ⟨0, 0, 2, 2⟩]

/-- Witness for C1's amended statement: 3-frame video, 2 audio windows. -/
theorem nativeOutput_count_eq_windows_witness :
    exNativeIn2.frames ≠ [] ∧ exNativeIn2.melOk = true ∧
    (∀ pr ∈ exPredsSome3, pr.isSome = true) ∧
    (∃ outs, (processVideoNative exResize exInfer exNativeIn2 exPredsSome3).1 = .ok outs ∧
      outs.length = (melChunksT exNativeIn2.fps exNativeIn2.mel).length ∧
      ((melChunksT exNativeIn2.fps exNativeIn2.mel).length ≤ exNativeIn2.frames.length →
        outs.length =
          min (melChunksT exNativeIn2.fps exNativeIn2.mel).length
            exNativeIn2.frames.length)) :=
  ⟨by simp [exNativeIn2], rfl, by decide,
   nativeOutput_count_eq_windows exResize exInfer (fun imgs ms => rfl) exNativeIn2
     exPredsSome3 (by simp [exNativeIn2]) rfl (by decide)⟩

/-- C2 amended: a missing detection on any consulted frame aborts the
native path with the fixed error message `faceNotDetectedMsg` — a
constant naming the failing condition and no frame index — before any
output frame is written.  But the job as a whole does not fail: the
exception is caught, the external-process strategy runs, and failing
that the passthrough copy runs, so the job returns an output path
whenever either succeeds (the original claim's full abort fails; see
the counterexample). -/
theorem detectFailure_aborts_native_job_falls_back
    (resize : Image → ℕ → ℕ → Image)
    (infer : List Image → List (List (List ℚ)) → List Image)
    (env : Env) (apath sfx : String)
    (haudio : env.audioExists = true)
    (havatar : env.avatar = some (apath, sfx))
    (himg : isImageSuffix sfx = false)
    (hckpt : env.checkpointExists = true)
    (hnenv : env.nativeEnvOk = true)
    (hframes : env.native.frames ≠ [])
    (hmel : env.native.melOk = true)
    (hfail : ∃ pr ∈ env.preds.zip
        (env.native.frames.take (melChunksT env.native.fps env.native.mel).length),
      pr.1 = none) :
    (processVideoNative resize infer env.native env.preds).1 =
      .error faceNotDetectedMsg ∧
    Ev.writeOutput ∉ (processVideoNative resize infer env.native env.preds).2 ∧
    Ev.subprocessAttempt ∈ (generate resize infer env).2 ∧
    (env.subprocessOk = true ∨ env.copyOk = true →
      (generate resize infer env).1 = .ok (outputPathFor env.jobId)) := by
  have hdet : detectFaces
      (env.native.frames.take (melChunksT env.native.fps env.native.mel).length)
      env.preds wav2lipPads = .error faceNotDetectedMsg :=
    detectLoop_error_of_none wav2lipPads _ hfail
  have hpvn : processVideoNative resize infer env.native env.preds =
      (.error faceNotDetectedMsg, [Ev.readFrames, Ev.decodeAudio, Ev.detect]) := by
    unfold processVideoNative
    rw [if_neg (by simp [hframes]), if_neg (by simp [hmel]), hdet]
  have hrw : runWav2lip resize infer env sfx =
      ((if env.subprocessOk then Except.ok () else Except.error subprocessFailedMsg),
       Ev.nativeAttempt :: [Ev.readFrames, Ev.decodeAudio, Ev.detect] ++
         [Ev.subprocessAttempt]) := by
    unfold runWav2lip runSubprocess
    rw [if_neg (by simp [hckpt]), if_neg (by simp [himg]), if_neg (by simp [hnenv]), hpvn]
  refine ⟨by rw [hpvn], by rw [hpvn]; decide, ?_, ?_⟩
  · unfold generate
    rw [if_neg (by simp [haudio])]
    simp only [havatar, hrw]
    cases hsub : env.subprocessOk
    · cases hcopy : env.copyOk <;> simp
    · simp
  · intro hor
    unfold generate
    rw [if_neg (by simp [haudio])]
    simp only [havatar, hrw]
    cases hsub : env.subprocessOk
    · have hcopy : env.copyOk = true := by
        rcases hor with h | h
        · rw [hsub] at h; cases h
        · exact h
      simp [hcopy]
    · simp

/-- C3 amended: a missing checkpoint makes `_run_wav2lip` raise the
precondition error before any strategy runs — the event trace of the
whole job is exactly the passthrough copy, so no frames are read, no
audio is decoded and neither inference strategy is attempted.  But
`generate` catches the error and falls back to the passthrough copy, so
the job returns the copied avatar path when the copy succeeds and only
fails when the copy itself fails (the original claim's immediate job
failure with no fallback fails; see the counterexample). -/
theorem missingCheckpoint_passthrough (resize : Image → ℕ → ℕ → Image)
    (infer : List Image → List (List (List ℚ)) → List Image)
    (env : Env) (apath sfx : String)
    (haudio : env.audioExists = true)
    (havatar : env.avatar = some (apath, sfx))
    (hckpt : env.checkpointExists = false) :
    (generate resize infer env).2 = [Ev.copyFile apath (outputPathFor env.jobId)] ∧
    (runWav2lip resize infer env sfx).1 =
      .error (checkpointMissingMsg env.checkpointPath) ∧
    (env.copyOk = true → (generate resize infer env).1 = .ok (outputPathFor env.jobId)) ∧
    (env.copyOk = false → (generate resize infer env).1 = .error copyFailedMsg) := by
  have hrw : runWav2lip resize infer env sfx =
      (.error (checkpointMissingMsg env.checkpointPath), []) := by
    unfold runWav2lip
    rw [if_pos hckpt]
  have hgen : generate resize infer env =
      ((if env.copyOk then Except.ok (outputPathFor env.jobId)
          else Except.error copyFailedMsg),
       [Ev.copyFile apath (outputPathFor env.jobId)]) := by
    unfold generate
    rw [if_neg (by simp [haudio])]
    simp only [havatar, hrw]
    cases hcopy : env.copyOk <;> simp
  refine ⟨by rw [hgen], hrw ▸ rfl, ?_, ?_⟩
  · intro hcopy
    rw [hgen, hcopy]
    rfl
  · intro hcopy
    rw [hgen, hcopy]
    rfl

/-- C4: when every inference strategy fails (`_run_wav2lip` returns an
error), `generate` copies the original avatar source verbatim to the
output path — the trace ends with exactly that copy — and returns the
same `.ok (output path)` a synthesized run returns; if the passthrough
copy itself fails, the error propagates to the caller. -/
theorem allStrategiesFail_passthrough (resize : Image → ℕ → ℕ → Image)
    (infer : List Image → List (List (List ℚ)) → List Image)
    (env : Env) (apath sfx msg : String)
    (haudio : env.audioExists = true)
    (havatar : env.avatar = some (apath, sfx))
    (hfail : (runWav2lip resize infer env sfx).1 = .error msg) :
    (generate resize infer env).2 =
      (runWav2lip resize infer env sfx).2 ++
        [Ev.copyFile apath (outputPathFor env.jobId)] ∧
    (env.copyOk = true → (generate resize infer env).1 = .ok (outputPathFor env.jobId)) ∧
    (env.copyOk = false → (generate resize infer env).1 = .error copyFailedMsg) := by
  rcases hres : runWav2lip resize infer env sfx with ⟨r1, tr⟩
  rw [hres] at hfail
  simp only at hfail
  subst hfail
  have hgen : generate resize infer env =
      ((if env.copyOk then Except.ok (outputPathFor env.jobId)
          else Except.error copyFailedMsg),
       tr ++ [Ev.copyFile apath (outputPathFor env.jobId)]) := by
    unfold generate
    rw [if_neg (by simp [haudio])]
    simp only [havatar, hres]
    cases hcopy : env.copyOk <;> simp
  refine ⟨by simp [hgen], ?_, ?_⟩
  · intro hcopy
    rw [hgen, hcopy]
    rfl
  · intro hcopy
    rw [hgen, hcopy]
    rfl

/-- C5: a still-image avatar (suffix `.jpg`/`.jpeg`/`.png`, case
folded) always routes inference through the external-process strategy:
the native in-process batch path is never attempted and no frames are
read in-process, regardless of the detector oracle. -/
theorem stillImage_routes_to_subprocess (resize : Image → ℕ → ℕ → Image)
    (infer : List Image → List (List (List ℚ)) → List Image)
    (env : Env) (apath sfx : String)
    (haudio : env.audioExists = true)
    (havatar : env.avatar = some (apath, sfx))
    (hckpt : env.checkpointExists = true)
    (himg : isImageSuffix sfx = true) :
    Ev.nativeAttempt ∉ (generate resize infer env).2 ∧
    Ev.readFrames ∉ (generate resize infer env).2 ∧
    Ev.subprocessAttempt ∈ (generate resize infer env).2 := by
  have hrw : runWav2lip resize infer env sfx =
      ((if env.subprocessOk then Except.ok () else Except.error subprocessFailedMsg),
       [Ev.subprocessAttempt]) := by
    unfold runWav2lip runSubprocess
    rw [if_neg (by simp [hckpt]), if_pos himg]
  unfold generate
  rw [if_neg (by simp [haudio])]
  simp only [havatar, hrw]
  cases hsub : env.subprocessOk
  · cases hcopy : env.copyOk <;> simp
  · simp

/-- Native inputs for orchestration examples: one readable frame, 25
fps, a 16-step spectrogram, NaN check passed. -/
def exNativeInDet : NativeIn := ⟨"avatars/a.mp4", [exFrame], 25, exMel16, true⟩

/-- Environment with a valid video job whose detector finds no face,
while the external strategy and the copy both work. -/
def exEnvC2 : Env :=
  ⟨true, "audio.wav", some ("avatars/a.mp4", ".mp4"), true,
   "models/wav2lip_gan.pth", true, exNativeInDet, [none], true, true, "job2"⟩

/-- C2 counterexample: with a detection failure on the (only) frame the
native path aborts with the face error, yet the job does NOT fail — it
returns `.ok` with the usual output path via the subprocess fallback,
so an output file is produced. -/
theorem detectFailure_job_succeeds_counterexample :
    exEnvC2.preds = [none] ∧
    (processVideoNative exResize exInfer exEnvC2.native exEnvC2.preds).1 =
      .error faceNotDetectedMsg ∧
    (generate exResize exInfer exEnvC2).1 = .ok (outputPathFor "job2") := by
  have hpvn : processVideoNative exResize exInfer exEnvC2.native exEnvC2.preds =
      (.error faceNotDetectedMsg, [Ev.readFrames, Ev.decodeAudio, Ev.detect]) := by
    unfold processVideoNative
    rw [show melChunksT exEnvC2.native.fps exEnvC2.native.mel = [exMel16, exMel16] from
      melChunksT_25_len16 exMel16 (by simp [exMel16])]
    rfl
  refine ⟨rfl, by rw [hpvn], ?_⟩
  unfold generate runWav2lip
  rw [hpvn]
  rfl

/-- Witness for C2's amended statement at the concrete environment. -/
theorem detectFailure_aborts_native_job_falls_back_witness :
    exEnvC2.audioExists = true ∧ isImageSuffix ".mp4" = false ∧
    (∃ pr ∈ exEnvC2.preds.zip
        (exEnvC2.native.frames.take
          (melChunksT exEnvC2.native.fps exEnvC2.native.mel).length),
      pr.1 = none) ∧
    ((processVideoNative exResize exInfer exEnvC2.native exEnvC2.preds).1 =
        .error faceNotDetectedMsg ∧
      Ev.writeOutput ∉
        (processVideoNative exResize exInfer exEnvC2.native exEnvC2.preds).2 ∧
      Ev.subprocessAttempt ∈ (generate exResize exInfer exEnvC2).2 ∧
      (exEnvC2.subprocessOk = true ∨ exEnvC2.copyOk = true →
        (generate exResize exInfer exEnvC2).1 = .ok (outputPathFor exEnvC2.jobId))) := by
  have hfail : ∃ pr ∈ exEnvC2.preds.zip
      (exEnvC2.native.frames.take
        (melChunksT exEnvC2.native.fps exEnvC2.native.mel).length), pr.1 = none := by
    rw [show melChunksT exEnvC2.native.fps exEnvC2.native.mel = [exMel16, exMel16] from
      melChunksT_25_len16 exMel16 (by simp [exMel16])]
    exact ⟨(none, exFrame), by simp [exEnvC2, exNativeInDet], rfl⟩
  exact ⟨rfl, by decide, hfail,
    detectFailure_aborts_native_job_falls_back exResize exInfer exEnvC2
      "avatars/a.mp4" ".mp4" rfl rfl (by decide) rfl rfl
      (by simp [exEnvC2, exNativeInDet]) rfl hfail⟩

/-- Environment with the checkpoint file absent but everything else in
place. -/
def exEnvC3 : Env :=
  ⟨true, "audio.wav", some ("avatars/a.mp4", ".mp4"), false,
   "models/wav2lip_gan.pth", true, exNativeInDet, [some ⟨0, 0, 2, 2⟩], true, true, "job3"⟩

/-- C3 counterexample: with the checkpoint absent the job does NOT fail
— `generate` performs the passthrough copy (the trace is exactly that
copy) and returns `.ok` with the usual output path. -/
theorem missingCheckpoint_job_succeeds_counterexample :
    exEnvC3.checkpointExists = false ∧
    (generate exResize exInfer exEnvC3).1 = .ok (outputPathFor "job3") ∧
    (generate exResize exInfer exEnvC3).2 =
      [Ev.copyFile "avatars/a.mp4" (outputPathFor "job3")] := by
  exact ⟨rfl, rfl, rfl⟩

/-- Witness for C3's amended statement at the concrete environment. -/
theorem missingCheckpoint_passthrough_witness :
    exEnvC3.audioExists = true ∧ exEnvC3.checkpointExists = false ∧
    ((generate exResize exInfer exEnvC3).2 =
      [Ev.copyFile "avatars/a.mp4" (outputPathFor exEnvC3.jobId)] ∧
     (runWav2lip exResize exInfer exEnvC3 ".mp4").1 =
       .error (checkpointMissingMsg exEnvC3.checkpointPath) ∧
     (exEnvC3.copyOk = true →
       (generate exResize exInfer exEnvC3).1 = .ok (outputPathFor exEnvC3.jobId)) ∧
     (exEnvC3.copyOk = false →
       (generate exResize exInfer exEnvC3).1 = .error copyFailedMsg)) :=
  ⟨rfl, rfl,
   missingCheckpoint_passthrough exResize exInfer exEnvC3 "avatars/a.mp4" ".mp4"
     rfl rfl rfl⟩

/-- Environment in which both inference strategies fail (native
environment broken, subprocess failing) and the copy works. -/
def exEnvC4 : Env :=
  ⟨true, "audio.wav", some ("avatars/a.mp4", ".mp4"), true,
   "models/wav2lip_gan.pth", false, exNativeInDet, [some ⟨0, 0, 2, 2⟩], false, true, "job4"⟩

/-- Witness for C4 at the concrete environment where every strategy
fails and the copy succeeds. -/
theorem allStrategiesFail_passthrough_witness :
    exEnvC4.audioExists = true ∧
    (runWav2lip exResize exInfer exEnvC4 ".mp4").1 = .error subprocessFailedMsg ∧
    ((generate exResize exInfer exEnvC4).2 =
      (runWav2lip exResize exInfer exEnvC4 ".mp4").2 ++
        [Ev.copyFile "avatars/a.mp4" (outputPathFor exEnvC4.jobId)] ∧
     (exEnvC4.copyOk = true →
       (generate exResize exInfer exEnvC4).1 = .ok (outputPathFor exEnvC4.jobId)) ∧
     (exEnvC4.copyOk = false →
       (generate exResize exInfer exEnvC4).1 = .error copyFailedMsg)) :=
  ⟨rfl, rfl,
   allStrategiesFail_passthrough exResize exInfer exEnvC4 "avatars/a.mp4" ".mp4"
     subprocessFailedMsg rfl rfl rfl⟩

/-- Environment with a still-image avatar (`.png`) and a detector
oracle that would fail on every frame — irrelevant, since the native
path must not run at all. -/
def exEnvC5 : Env :=
  ⟨true, "audio.wav", some ("avatars/face.png", ".png"), true,
   "models/wav2lip_gan.pth", true, exNativeInDet, [none], true, true, "job5"⟩

/-- Witness for C5 at the concrete still-image environment. -/
theorem stillImage_routes_to_subprocess_witness :
    exEnvC5.audioExists = true ∧ isImageSuffix ".png" = true ∧
    (Ev.nativeAttempt ∉ (generate exResize exInfer exEnvC5).2 ∧
     Ev.readFrames ∉ (generate exResize exInfer exEnvC5).2 ∧
     Ev.subprocessAttempt ∈ (generate exResize exInfer exEnvC5).2) :=
  ⟨rfl, by decide,
   stillImage_routes_to_subprocess exResize exInfer exEnvC5 "avatars/face.png" ".png"
     rfl rfl rfl (by decide)⟩
